import Mathlib

/-!
Verification of the GISAID_processing repository (gisaid_utils.py).

The Python source is shallowly embedded: pandas tables become `List`s of
records, stateful pipelines become pure functions, and fallible code
(Python exceptions) returns `Except`/`Option`.  External collaborators
(network fetch, gzip, pandas CSV parsing, the `unidecode` transliteration)
are outside the embedding; record fields are the already-parsed strings.
-/

/-! ## Character helpers

Python's `datetime.strptime` compiles its format to a regular expression;
`\d` is modelled as an ASCII digit (the country/date data handled by the
program is ASCII).  Comparisons are on code points. -/

/-- Numeric value of an ASCII digit character (`int(c)` on a matched digit). -/
def digVal (c : Char) : Nat := c.toNat - 48

/-- Tests membership in the regex class `\d` (ASCII digit `0`-`9`). -/
def isDig (c : Char) : Bool := 48 ≤ c.toNat && c.toNat ≤ 57

/-! ## Python `str.split` / `str.join` for a one-character separator

`"a-b".split("-") == ["a", "b"]`, keeping empty components; `sep.join`
re-interleaves.  Modelled on `List Char`. -/

/-- Helper for `splitOnCh`: returns the component before the first separator
and the list of remaining components. -/
def splitAux (sep : Char) : List Char → List Char × List (List Char)
  | [] => ([], [])
  | c :: rest =>
    if c = sep then ([], (splitAux sep rest).1 :: (splitAux sep rest).2)
    else (c :: (splitAux sep rest).1, (splitAux sep rest).2)

/-- Python `s.split(sep)` for a single-character separator: every occurrence
splits, empty components are kept, and the result is never empty. -/
def splitOnCh (sep : Char) (cs : List Char) : List (List Char) :=
  (splitAux sep cs).1 :: (splitAux sep cs).2

/-- Python `sep.join(parts)` for a single-character separator. -/
def joinCh (sep : Char) : List (List Char) → List Char
  | [] => []
  | [x] => x
  | x :: y :: rest => x ++ sep :: joinCh sep (y :: rest)

/-- Embedding of `handle_two_part_dates` (gisaid_utils.py lines 49-55):
split on `"-"`, append a non-padded `"1"` when there are exactly two
components, and rejoin. -/
def handle_two_part_dates (date : String) : String :=
  String.mk (joinCh '-'
    (if (splitOnCh '-' date.toList).length = 2
     then splitOnCh '-' date.toList ++ [['1']]
     else splitOnCh '-' date.toList))

/-! ## `datetime.strptime(date, "%Y-%m-%d")`

CPython's `_strptime` matches the regex
`(?P<Y>\d\d\d\d)\-(?P<m>1[0-2]|0[1-9]|[1-9])\-(?P<d>3[01]|[12]\d|0[1-9]|[1-9])`
as a prefix of the input, raises `ValueError` when the match fails or does
not consume the whole string, and then builds `datetime(Y, m, d)`, which
raises `ValueError` unless `1 <= Y` and the day exists in the proleptic
Gregorian calendar.  The alternation is modelled deterministically: a
two-digit month alternative that matches can never be undone by
backtracking, because the following literal `-` cannot match a digit, and
nothing follows the day group inside the regex. -/

/-- Matches the month group `1[0-2]|0[1-9]|[1-9]`, returning the month value
and the unconsumed characters. -/
def parseMonth : List Char → Option (Nat × List Char)
  | [] => none
  | [c] => if 49 ≤ c.toNat ∧ c.toNat ≤ 57 then some (digVal c, []) else none
  | c1 :: c2 :: rest =>
    if c1 = '1' ∧ 48 ≤ c2.toNat ∧ c2.toNat ≤ 50 then
      some (10 + digVal c2, rest)
    else if c1 = '0' ∧ 49 ≤ c2.toNat ∧ c2.toNat ≤ 57 then
      some (digVal c2, rest)
    else if 49 ≤ c1.toNat ∧ c1.toNat ≤ 57 then
      some (digVal c1, c2 :: rest)
    else none

/-- Matches the day group `3[01]|[12]\d|0[1-9]|[1-9]`, returning the day value
and the unconsumed characters. -/
def parseDay : List Char → Option (Nat × List Char)
  | [] => none
  | [c] => if 49 ≤ c.toNat ∧ c.toNat ≤ 57 then some (digVal c, []) else none
  | c1 :: c2 :: rest =>
    if c1 = '3' ∧ 48 ≤ c2.toNat ∧ c2.toNat ≤ 49 then
      some (30 + digVal c2, rest)
    else if (49 ≤ c1.toNat ∧ c1.toNat ≤ 50) ∧ (48 ≤ c2.toNat ∧ c2.toNat ≤ 57) then
      some (10 * digVal c1 + digVal c2, rest)
    else if c1 = '0' ∧ 49 ≤ c2.toNat ∧ c2.toNat ≤ 57 then
      some (digVal c2, rest)
    else if 49 ≤ c1.toNat ∧ c1.toNat ≤ 57 then
      some (digVal c1, c2 :: rest)
    else none

/-- Value of the four year digits. -/
def yearVal (c1 c2 c3 c4 : Char) : Nat :=
  1000 * digVal c1 + 100 * digVal c2 + 10 * digVal c3 + digVal c4

/-- After the day group has been matched, strptime's "unconverted data
remains" check: the match must have consumed the whole string. -/
def finishDay (t : Option (Nat × List Char)) (y m : Nat) : Option (Nat × Nat × Nat) :=
  match t with
  | some (d, rest4) => if rest4 = [] then some (y, m, d) else none
  | none => none

/-- After the month group, the literal `-` and the day group must match. -/
def afterMonth (rest2 : List Char) (y m : Nat) : Option (Nat × Nat × Nat) :=
  match rest2 with
  | c6 :: rest3 => if c6 = '-' then finishDay (parseDay rest3) y m else none
  | [] => none

/-- The full `%Y-%m-%d` regex match, requiring the whole string to be
consumed (strptime's "unconverted data remains" check). -/
def parseYMD (cs : List Char) : Option (Nat × Nat × Nat) :=
  match cs with
  | c1 :: c2 :: c3 :: c4 :: c5 :: rest =>
    if isDig c1 ∧ isDig c2 ∧ isDig c3 ∧ isDig c4 ∧ c5 = '-' then
      match parseMonth rest with
      | some (m, rest2) => afterMonth rest2 (yearVal c1 c2 c3 c4) m
      | none => none
    else none
  | _ => none

/-- Proleptic Gregorian leap-year rule used by `datetime`. -/
def isLeap (y : Nat) : Bool := y % 4 == 0 && (y % 100 != 0 || y % 400 == 0)

/-- Number of days in a month, as validated by the `datetime` constructor. -/
def daysInMonth (y m : Nat) : Nat :=
  if m = 2 then (if isLeap y then 29 else 28)
  else if m = 4 ∨ m = 6 ∨ m = 9 ∨ m = 11 then 30 else 31

/-- The `datetime(Y, m, d)` constructor's validation: year at least 1 and a
day that exists in the proleptic Gregorian month. -/
def checkCal (t : Option (Nat × Nat × Nat)) : Option (Nat × Nat × Nat) :=
  match t with
  | some (y, m, d) => if 1 ≤ y ∧ d ≤ daysInMonth y m then some (y, m, d) else none
  | none => none

/-- Embedding of `datetime.strptime(s, "%Y-%m-%d")`: `none` models a raised
`ValueError` (regex failure, leftover characters, year 0, or a day that
does not exist in the month). -/
def strptimeYMD (s : String) : Option (Nat × Nat × Nat) :=
  checkCal (parseYMD s.toList)

/-- Embedding of `is_date_valid` (gisaid_utils.py lines 58-64): the
`ValueError` is caught and turned into `false`. -/
def is_date_valid (date : String) : Bool := (strptimeYMD date).isSome

/-! ## Declarative characterisation of the accepted date strings -/

/-- The strings accepted as a month component: `MM` (zero-padded, `01`-`12`)
or a single digit `1`-`9`, together with the denoted month value. -/
def MonthTok (cs : List Char) (m : Nat) : Prop :=
  (∃ c, cs = ['0', c] ∧ 49 ≤ c.toNat ∧ c.toNat ≤ 57 ∧ m = digVal c) ∨
  (∃ c, cs = ['1', c] ∧ 48 ≤ c.toNat ∧ c.toNat ≤ 50 ∧ m = 10 + digVal c) ∨
  (∃ c, cs = [c] ∧ 49 ≤ c.toNat ∧ c.toNat ≤ 57 ∧ m = digVal c)

/-- The strings accepted as a day component: `DD` (zero-padded or in
`10`-`31`) or a single digit `1`-`9`, together with the denoted day value. -/
def DayTok (cs : List Char) (d : Nat) : Prop :=
  (∃ c, cs = ['0', c] ∧ 49 ≤ c.toNat ∧ c.toNat ≤ 57 ∧ d = digVal c) ∨
  (∃ c, cs = ['3', c] ∧ 48 ≤ c.toNat ∧ c.toNat ≤ 49 ∧ d = 30 + digVal c) ∨
  (∃ c1 c2, cs = [c1, c2] ∧ 49 ≤ c1.toNat ∧ c1.toNat ≤ 50 ∧
     48 ≤ c2.toNat ∧ c2.toNat ≤ 57 ∧ d = 10 * digVal c1 + digVal c2) ∨
  (∃ c, cs = [c] ∧ 49 ≤ c.toNat ∧ c.toNat ≤ 57 ∧ d = digVal c)

/-- A string denotes a real proleptic-Gregorian calendar date in the
`YYYY-MM-DD` shape accepted by `strptime` (four year digits, month and day
components with real calendar values; strptime also accepts the
non-zero-padded one-digit month and day forms). -/
def IsGregorianDate (s : String) : Prop :=
  ∃ y m d c1 c2 c3 c4 mcs dcs,
    s.toList = c1 :: c2 :: c3 :: c4 :: '-' :: (mcs ++ '-' :: dcs) ∧
    isDig c1 = true ∧ isDig c2 = true ∧ isDig c3 = true ∧ isDig c4 = true ∧
    y = yearVal c1 c2 c3 c4 ∧
    MonthTok mcs m ∧ DayTok dcs d ∧
    1 ≤ y ∧ 1 ≤ m ∧ m ≤ 12 ∧ 1 ≤ d ∧ d ≤ daysInMonth y m

/-! ## Day ordinals and `days_to_submit`

`datetime` subtraction yields a `timedelta` whose `total_seconds()` is the
difference of proleptic-Gregorian day ordinals times 86400 (both datetimes
are midnight; the float is exact, the magnitude being far below 2^53).
The code floor-divides by `3600 * 24` and converts with `int`. -/

/-- Days in the months of year `y` strictly before month `m`. -/
def daysBeforeMonth (y m : Nat) : Nat :=
  (List.range (m - 1)).foldl (fun acc i => acc + daysInMonth y (i + 1)) 0

/-- Python's `date.toordinal()`: day number with January 1 of year 1 as 1. -/
def toOrdinal (y m d : Nat) : Nat :=
  365 * (y - 1) + (y - 1) / 4 - (y - 1) / 100 + (y - 1) / 400 +
    daysBeforeMonth y m + d

/-- Embedding of the `days_to_submit` lambda (gisaid_utils.py lines 168-177):
`int((strptime(date_submitted) - strptime(date)).total_seconds() // (3600*24))`.
`none` models the uncaught `ValueError` of either `strptime` call. -/
def days_to_submit (date date_submitted : String) : Option Int :=
  match strptimeYMD date_submitted, strptimeYMD date with
  | some (y2, m2, d2), some (y1, m1, d1) =>
    some (Int.fdiv
      (((toOrdinal y2 m2 d2 : Int) - (toOrdinal y1 m1 d1 : Int)) * 86400) 86400)
  | _, _ => none

/-! ## The Africa metadata records and the lab-name substitution rules -/

/-- One row of the filtered GISAID metadata, with the columns the cleanup
touches (remaining columns are passthrough).  `Nextstrain_clade` is
`none` when the cell is NaN (`notna()` is false). -/
structure MetadataRecord where
  date : String
  date_submitted : String
  Nextstrain_clade : Option String
  submitting_lab : String
  country : String
deriving DecidableEq

/-- Output row of `get_africa_metadata`, with the three derived columns. -/
structure AfricaRecord where
  date : String
  date_submitted : String
  Nextstrain_clade : Option String
  submitting_lab : String
  country : String
  date_yearmon : String
  date_submitted_yearmon : String
  days_to_submit : Int
deriving DecidableEq

/-- Python `s.startswith(p)` on character lists. -/
def startsWithChars : List Char → List Char → Bool
  | [], _ => true
  | _ :: _, [] => false
  | p :: ps, c :: cs => p == c && startsWithChars ps cs

/-- Python `s.startswith(p)`. -/
def pyStartsWith (s p : String) : Bool := startsWithChars p.toList s.toList

/-- One `.loc` substitution rule of `get_africa_metadata` (lines 80-157):
an optional equality condition on `country`, a condition on the current
`submitting_lab`, and the replacement string. -/
structure LabRule where
  countryCond : Option String
  labCond : String → Bool
  repl : String

/-- The eleven `.loc` substitution rules, in program order, transcribed
verbatim from gisaid_utils.py lines 80-157 (including the misspelled
trigger strings and the U+2019 quote in the ACEGID replacement). -/
def labRules : List LabRule := [
  ⟨none, fun l => l == "KRISP, KZn Research Innovation and Sequencing Platform",
    "KRISP, KZN Research Innovation and Sequencing Platform"⟩,
  ⟨none, fun l => ([
      "CERI, Centre for Epidemic Response and Innvoation, Stellenbosch University and KRISP, KZN Research Innovation and Sequencing Platform, UKZN.",
      "CERI, Centre for Epidemic Response and Innovation, Stellenbosch Univeristy & KRISP, KZN Research Innovation and Sequencing Platform",
      "CERI, Centre for Epidemic Response and Innovation, Stellenbosch University and CERI-KRISP, KZN Research Innovation and Sequencing Platform"] : List String).contains l,
    "CERI, Centre for Epidemic Response and Innovation"⟩,
  ⟨none, fun l => ([
      "National Health Laboratory Service/University of Cape Town (National Health Laboratory Service/University of Cape Town (NHLS/UCT))",
      "National Health Laboratory Service/University of Cape Town (NHLS/UCT)",
      "National Health Laboratory Service/UCT"] : List String).contains l,
    "NHLS/UCT"⟩,
  ⟨none, fun l => ([
      "National Health Laboratory Service (NHLS), Tygerberg",
      "Division of Medical Virology, Stellenbosch University and National Health Laboratory Service (NHLS)",
      "Division of Medical Virology, National Health Laboratory Service (NHLS), Tygerberg Hospital / Stellenbosch University",
      "Stellenbosch University and NHLS",
      "National Health Laboratory Services, Virology"] : List String).contains l,
    "Division of Medical Virology, Stellenbosch University and NHLS Tygerberg Hospital"⟩,
  ⟨none, fun l => l == "ZARV, Department Mdeical Virology, University of Pretoria",
    "ZARV, Department Medical Virology, University of Pretoria"⟩,
  ⟨none, fun l => l == "Where sequence data have been generated and submitted to GISAID",
    "MRC/UVRI & LSHTM Uganda Research Unit"⟩,
  ⟨none, fun l => l == "KEMRI-Wellcome Trust Research Programme,Kilifi",
    "KEMRI-Wellcome Trust Research Programme/KEMRI-CGMR-C Kilifi"⟩,
  ⟨some "Nigeria",
    fun l => pyStartsWith l "African Centre of Excellence for Genomics of Infectious Diseases",
    "ACEGID, African Centre of Excellence for Genomics of Infectious Diseases, Redeemer’s University, Ede"⟩,
  ⟨none, fun l => l == "Redeemer\x27s University, ACEGID",
    "ACEGID, African Centre of Excellence for Genomics of Infectious Diseases, Redeemer’s University, Ede"⟩,
  ⟨some "Nigeria", fun l => pyStartsWith l "National",
    "NCDC, National Reference Laboratory, Nigeria Centre for Disease Control, Gaduwa, Abuja, Nigeria"⟩,
  ⟨some "Democratic Republic of the Congo",
    fun l => l == "Pathogen Sequencing Lab, National Institute for Biomedical Research (INRB)",
    "INRB, Pathogen Sequencing Lab, National Institute for Biomedical Research"⟩]

/-- Whether a rule's condition holds for a record's current values. -/
def fires (r : LabRule) (country lab : String) : Bool :=
  (match r.countryCond with
   | some cn => country == cn
   | none => true) && r.labCond lab

/-- Result of applying the eleven `.loc` substitutions, in order, to one
record's `submitting_lab`.  Each `.loc` assignment re-evaluates its
condition on the current table, so the table-wide stage is the per-record
fold of the rules. -/
def normalizeLab (country lab : String) : String :=
  labRules.foldl (fun cur r => if fires r country cur then r.repl else cur) lab

/-- The lab-name normalization stage applied to a whole table. -/
def normalize_submitting_labs (rows : List MetadataRecord) : List MetadataRecord :=
  rows.map (fun r => ⟨r.date, r.date_submitted, r.Nextstrain_clade,
    normalizeLab r.country r.submitting_lab, r.country⟩)

/-- Derived year-month column: `"-".join(s.split("-")[:-1])`. -/
def yearmon (s : String) : String :=
  String.mk (joinCh '-' ((splitOnCh '-' s.toList).dropLast))

/-- The derived-column stage (gisaid_utils.py lines 159-177): adds the two
year-month columns and `days_to_submit`; a `ValueError` from `strptime`
on any row aborts the whole call. -/
def buildOut : List MetadataRecord → Except String (List AfricaRecord)
  | [] => .ok []
  | r :: rest =>
    match days_to_submit r.date r.date_submitted with
    | none => .error "ValueError: time data does not match format"
    | some k =>
      match buildOut rest with
      | .ok out => .ok (⟨r.date, r.date_submitted, r.Nextstrain_clade,
          r.submitting_lab, r.country, yearmon r.date,
          yearmon r.date_submitted, k⟩ :: out)
      | .error e => .error e

/-- Embedding of `get_africa_metadata` (gisaid_utils.py lines 67-178):
repair two-part dates, keep rows with a valid three-part date and a
non-null Nextstrain clade, normalize lab names, and add derived columns. -/
def get_africa_metadata (rows : List MetadataRecord) : Except String (List AfricaRecord) :=
  buildOut (normalize_submitting_labs
    ((((rows.map (fun r => ⟨handle_two_part_dates r.date, r.date_submitted,
            r.Nextstrain_clade, r.submitting_lab, r.country⟩)).filter
        (fun r => is_date_valid r.date)).filter
          (fun r => (splitOnCh '-' r.date.toList).length == 3)).filter
            (fun r => r.Nextstrain_clade.isSome)))

/-! ## Country resolution -/

/-- One row of the countries-with-codes reference table. -/
structure CountryRow where
  Country_Name : String
  Two_Letter_Country_Code : String
  Three_Letter_Country_Code : String
  Continent_Name : String
deriving DecidableEq

/-- The `country_name_alias` dict of `get_nextstrain_sequence_counts`
(gisaid_utils.py lines 202-234), transcribed verbatim. -/
def country_name_alias : List (String × String) := [
  ("Armenia", "Armenia, Republic of"),
  ("Azerbaijan", "Azerbaijan, Republic of"),
  ("Cabo Verde", "Cape Verde, Republic of"),
  ("China", "China, People\x27s Republic of"),
  ("Cyprus", "Cyprus, Republic of"),
  ("Curacao", "Curaçao"),
  ("Democratic Republic of the Congo", "Congo, Democratic Republic of the"),
  ("Republic of the Congo", "Congo, Republic of the"),
  ("Dominica", "Dominica, Commonwealth of"),
  ("Dominican Republic", "Dominican Republic"),
  ("Eswatini", "Swaziland, Kingdom of"),
  ("Georgia", "Georgia"),
  ("Guinea", "Guinea, Republic of"),
  ("India", "India, Republic of"),
  ("Iraq", "Iraq, Republic of"),
  ("Ireland", "Ireland"),
  ("Kazakhstan", "Kazakhstan, Republic of"),
  ("Kyrgyzstan", "Kyrgyz Republic"),
  ("Laos", "Lao People\x27s Democratic Republic"),
  ("Netherlands", "Netherlands, Kingdom of the"),
  ("Niger", "Niger, Republic of"),
  ("Nigeria", "Nigeria, Federal Republic of"),
  ("North Macedonia", "Macedonia, The Former Yugoslav Republic of"),
  ("Russia", "Russian Federation"),
  ("Saudi Arabia", "Saudi Arabia, Kingdom of"),
  ("South Korea", "Korea, Republic of"),
  ("Sudan", "Sudan, Republic of"),
  ("Turkey", "Turkey, Republic of"),
  ("Union of the Comoros", "Comoros, Union of the"),
  ("UK", "United Kingdom of Great Britain & Northern Ireland"),
  ("USA", "United States of America")]

/-- Alias substitution: `if decoded in country_name_alias: decoded = ...`. -/
def applyAlias (name : String) : String :=
  match country_name_alias.lookup name with
  | some v => v
  | none => name

/-- Python substring containment on character lists (needle, haystack). -/
def containsChars (nd : List Char) : List Char → Bool
  | [] => nd.isEmpty
  | c :: t => startsWithChars nd (c :: t) || containsChars nd t

/-- `hay.str.contains(nd)`: pandas treats the pattern as a regex, but every
country name the program feeds it is free of regex metacharacters, so the
search degenerates to plain substring containment. -/
def containsSub (hay nd : String) : Bool := containsChars nd.toList hay.toList

/-- The matching steps of the resolution loop, after alias substitution:
exact `Country_Name` match (first matching row, pandas `iloc[0]`), then
substring match accepted only when it selects exactly one row, then the
hardcoded Kosovo/Palestine overrides, then the `raise`. -/
def resolveDecoded (countries : List CountryRow) (name decoded : String) :
    Except (String × String) (String × String) :=
  match (countries.filter (fun r => r.Country_Name == decoded)).head? with
  | some r => .ok (r.Continent_Name, r.Two_Letter_Country_Code)
  | none =>
    match countries.filter (fun r => containsSub r.Country_Name decoded) with
    | [r] => .ok (r.Continent_Name, r.Two_Letter_Country_Code)
    | _ =>
      if decoded = "Kosovo" then .ok ("Europe", "XK")
      else if decoded = "Palestine" then .ok ("Asia", "PS")
      else .error ("Unknown country:", name)

/-- Embedding of the per-country resolution loop body of
`get_nextstrain_sequence_counts` (gisaid_utils.py lines 237-262).  The
input is the country name after `unidecode` transliteration (an external
collaborator that leaves the ASCII names considered here unchanged).
The `Except` error is the payload of the `raise` statement on line 257:
`("Unknown country:", country_name)` with the original, un-aliased name. -/
def resolveCountry (countries : List CountryRow) (name : String) :
    Except (String × String) (String × String) :=
  resolveDecoded countries name (applyAlias name)

/-- The static `gisaid_country_to_country_name` dict (gisaid_utils.py
lines 267-321), transcribed verbatim. -/
def gisaid_country_to_country_name : List (String × String) := [
  ("Algeria", "Algeria, People\x27s Democratic Republic of"),
  ("Angola", "Angola, Republic of"),
  ("Benin", "Benin, Republic of"),
  ("Botswana", "Botswana, Republic of"),
  ("Burkina Faso", "Burkina Faso"),
  ("Burundi", "Burundi, Republic of"),
  ("Cabo Verde", "Cape Verde, Republic of"),
  ("Cameroon", "Cameroon, Republic of"),
  ("Côte d\x27Ivoire", "Cote d\x27Ivoire, Republic of"),
  ("Central African Republic", "Central African Republic"),
  ("Chad", "Chad, Republic of"),
  ("Democratic Republic of the Congo", "Congo, Democratic Republic of the"),
  ("Djibouti", "Djibouti, Republic of"),
  ("Egypt", "Egypt, Arab Republic of"),
  ("Equatorial Guinea", "Equatorial Guinea, Republic of"),
  ("Eswatini", "Swaziland, Kingdom of"),
  ("Ethiopia", "Ethiopia, Federal Democratic Republic of"),
  ("Gabon", "Gabon, Gabonese Republic"),
  ("Gambia", "Gambia, Republic of the"),
  ("Ghana", "Ghana, Republic of"),
  ("Guinea", "Guinea, Republic of"),
  ("Guinea-Bissau", "Guinea-Bissau, Republic of"),
  ("Kenya", "Kenya, Republic of"),
  ("Lesotho", "Lesotho, Kingdom of"),
  ("Liberia", "Liberia, Republic of"),
  ("Libya", "Libyan Arab Jamahiriya"),
  ("Madagascar", "Madagascar, Republic of"),
  ("Malawi", "Malawi, Republic of"),
  ("Mali", "Mali, Republic of"),
  ("Mauritania", "Mauritania, Islamic Republic of"),
  ("Mauritius", "Mauritius, Republic of"),
  ("Morocco", "Morocco, Kingdom of"),
  ("Mozambique", "Mozambique, Republic of"),
  ("Namibia", "Namibia, Republic of"),
  ("Niger", "Niger, Republic of"),
  ("Nigeria", "Nigeria, Federal Republic of"),
  ("Republic of the Congo", "Congo, Republic of the"),
  ("Rwanda", "Rwanda, Republic of"),
  ("Sao Tome and Principe", "Sao Tome and Principe, Democratic Republic of"),
  ("Senegal", "Senegal, Republic of"),
  ("Seychelles", "Seychelles, Republic of"),
  ("Sierra Leone", "Sierra Leone, Republic of"),
  ("Somalia", "Somalia, Somali Republic"),
  ("South Africa", "South Africa, Republic of"),
  ("South Sudan", "South Sudan"),
  ("Sudan", "Sudan, Republic of"),
  ("Tanzania", "Tanzania, United Republic of"),
  ("Togo", "Togo, Togolese Republic"),
  ("Tunisia", "Tunisia, Tunisian Republic"),
  ("Uganda", "Uganda, Republic of"),
  ("Union of the Comoros", "Comoros, Union of the"),
  ("Zambia", "Zambia, Republic of"),
  ("Zimbabwe", "Zimbabwe, Republic of")]

/-- The `Three_Letter_Country_Code` values of the reference rows whose
`Country_Name` equals the statically mapped name.  A name missing from the
static dict gives `dict.get -> None`, which equals no pandas cell, hence
no matching rows. -/
def iso3Matches (country_name : String) (countries_df : List CountryRow) : List String :=
  match gisaid_country_to_country_name.lookup country_name with
  | some ref =>
    (countries_df.filter (fun r => r.Country_Name == ref)).map
      (fun r => r.Three_Letter_Country_Code)
  | none => []

/-- Embedding of `country_name_to_iso3` (gisaid_utils.py lines 323-327):
`.error` models the raised `ValueError` with its f-string message. -/
def country_name_to_iso3 (country_name : String) (countries_df : List CountryRow) :
    Except String String :=
  match iso3Matches country_name countries_df with
  | [code] => .ok code
  | l => .error ("Wrong number of matches for " ++ country_name ++ ": " ++
      toString l.length)

/-! ## The region filter `extract_africa_metadata` -/

/-- One iteration of the loop in `extract_africa_metadata` (gisaid_utils.py
lines 38-46).  The function body assigns `first_line_seen` and
`total_genomes` inside the loop but never initialises them, so both are
uninitialised locals, modelled as `Option` values starting at `none`;
reading `none` is Python's `UnboundLocalError`.  State: (first_line_seen,
total_genomes, lines written so far). -/
def extractStep (st : Option Bool × Option Nat × List String) (line : String) :
    Except String (Option Bool × Option Nat × List String) :=
  match st.1 with
  | none => .error "UnboundLocalError: first_line_seen"
  | some seen =>
    let firstSeen : Option Bool := some true
    let out := if !seen then st.2.2 ++ [line] else st.2.2
    let fields := splitOnCh '\t' line.toList
    match st.2.1 with
    | none => .error "UnboundLocalError: total_genomes"
    | some n =>
      match fields.drop 5 with
      | [] => .error "IndexError: list index out of range"
      | f5 :: _ =>
        .ok (firstSeen, some (n + 1),
          if String.mk f5 = "Africa" then out ++ [line] else out)

/-- Embedding of the filtering pass of `extract_africa_metadata`
(gisaid_utils.py lines 31-46), run when the input file is newer than the
output: the produced output lines, or the exception that aborts the pass. -/
def extract_africa_metadata (lines : List String) : Except String (List String) :=
  match lines.foldlM extractStep (none, none, []) with
  | .ok st => .ok st.2.2
  | .error e => .error e

/-! ## Concrete sample data used by the witness theorems -/

/-- A sample metadata table with a year-month collection date. -/
def sampleRows : List MetadataRecord :=
  [⟨"2021-06", "2021-07-01", some "21K", "Lab X", "Kenya"⟩]

/-- The cleaned record produced from `sampleRows`. -/
def sampleOutRec : AfricaRecord :=
  ⟨"2021-06-1", "2021-07-01", some "21K", "Lab X", "Kenya", "2021-06", "2021-07", 30⟩

/-- The cleaned table produced from `sampleRows`. -/
def sampleOut : List AfricaRecord := [sampleOutRec]

/-- A reference table with two rows both containing "Congo" as a substring. -/
def congoTable : List CountryRow :=
  [⟨"Congo, Democratic Republic of the", "CD", "COD", "Africa"⟩,
   ⟨"Congo, Republic of the", "CG", "COG", "Africa"⟩]

/-- A one-row reference table for the ISO-3 lookup. -/
def ugandaTable : List CountryRow :=
  [⟨"Uganda, Republic of", "UG", "UGA", "Africa"⟩]

/-! # Theorems -/

theorem joinCh_cons_cons (sep : Char) (x y : List Char) (rest : List (List Char)) :
    joinCh sep (x :: y :: rest) = x ++ sep :: joinCh sep (y :: rest) := rfl

theorem joinCh_splitAux (sep : Char) (cs : List Char) :
    joinCh sep ((splitAux sep cs).1 :: (splitAux sep cs).2) = cs := by
  induction cs with
  | nil => rfl
  | cons c rest ih =>
    by_cases h : c = sep
    · subst h
      simp only [splitAux, eq_self_iff_true, if_true, joinCh_cons_cons,
        List.nil_append]
      rw [ih]
    · simp only [splitAux, if_neg h]
      cases hsp : (splitAux sep rest).2 with
      | nil =>
        rw [hsp] at ih
        simpa [joinCh] using congrArg (c :: ·) ih
      | cons a t =>
        rw [hsp] at ih
        rw [joinCh_cons_cons] at ih
        rw [joinCh_cons_cons]
        simpa using congrArg (c :: ·) ih

theorem joinCh_splitOnCh (sep : Char) (cs : List Char) :
    joinCh sep (splitOnCh sep cs) = cs := joinCh_splitAux sep cs

theorem string_mk_toList (s : String) : String.mk s.toList = s := rfl

theorem string_append_eq (s t : String) : s ++ t = String.mk (s.toList ++ t.toList) := rfl

/-- C2: `handle_two_part_dates` appends the non-padded `"-1"` to every
string with exactly two dash-separated components and returns every other
string (any other component count, three-part dates included) unchanged. -/
theorem handle_two_part_dates_spec (s : String) :
    ((splitOnCh '-' s.toList).length = 2 → handle_two_part_dates s = s ++ "-1") ∧
    ((splitOnCh '-' s.toList).length ≠ 2 → handle_two_part_dates s = s) := by
  constructor
  · intro h2
    unfold handle_two_part_dates
    rw [if_pos h2]
    obtain ⟨a, t, hsplit⟩ : ∃ a t, splitOnCh '-' s.toList = a :: t :=
      ⟨(splitAux '-' s.toList).1, (splitAux '-' s.toList).2, rfl⟩
    rw [hsplit] at h2
    obtain ⟨b, hb⟩ : ∃ b, t = [b] := by
      cases t with
      | nil => simp at h2
      | cons b t' =>
        cases t' with
        | nil => exact ⟨b, rfl⟩
        | cons x t'' => simp at h2
    subst hb
    have hjoin : joinCh '-' [a, b] = s.toList := by
      rw [← hsplit]; exact joinCh_splitOnCh '-' s.toList
    rw [hsplit, string_append_eq]
    have : joinCh '-' ([a, b] ++ [['1']]) = (a ++ '-' :: b) ++ ['-', '1'] := by
      simp [joinCh_cons_cons, joinCh]
    rw [this]
    have hab : a ++ '-' :: b = s.toList := by
      simpa [joinCh_cons_cons, joinCh] using hjoin
    rw [hab]
    rfl
  · intro hne
    unfold handle_two_part_dates
    rw [if_neg hne, joinCh_splitOnCh]
    exact string_mk_toList s

/-- Witness for C2 at the spec's concrete examples. -/
theorem handle_two_part_dates_spec_witness :
    handle_two_part_dates "2021-06" = "2021-06-1" ∧
    handle_two_part_dates "2021-06-15" = "2021-06-15" := by
  constructor
  · rw [(handle_two_part_dates_spec "2021-06").1 (by decide)]; rfl
  · exact (handle_two_part_dates_spec "2021-06-15").2 (by decide)

theorem char_eq_of_toNat {c d : Char} (h : c.toNat = d.toNat) : c = d := by
  rw [← Char.ofNat_toNat c, h, Char.ofNat_toNat]

theorem isDig_iff {c : Char} : isDig c = true ↔ 48 ≤ c.toNat ∧ c.toNat ≤ 57 := by
  simp [isDig, Bool.and_eq_true, decide_eq_true_eq]

theorem string_toList_mk (l : List Char) : (String.mk l).toList = l := rfl

theorem parseMonth_sound {cs rest : List Char} {m : Nat}
    (h : parseMonth cs = some (m, rest)) :
    ∃ mcs, cs = mcs ++ rest ∧ MonthTok mcs m := by
  match cs with
  | [] => simp [parseMonth] at h
  | [c] =>
    simp only [parseMonth] at h
    split_ifs at h with hc
    simp only [Option.some.injEq, Prod.mk.injEq] at h
    obtain ⟨hm, hr⟩ := h
    subst hm; subst hr
    exact ⟨[c], by simp, Or.inr (Or.inr ⟨c, rfl, hc.1, hc.2, rfl⟩)⟩
  | c1 :: c2 :: rest' =>
    simp only [parseMonth] at h
    split_ifs at h with h1 h2 h3
    · simp only [Option.some.injEq, Prod.mk.injEq] at h
      obtain ⟨hm, hr⟩ := h
      subst hm; subst hr
      obtain ⟨hc1, hc2⟩ := h1
      subst hc1
      exact ⟨['1', c2], rfl, Or.inr (Or.inl ⟨c2, rfl, hc2.1, hc2.2, rfl⟩)⟩
    · simp only [Option.some.injEq, Prod.mk.injEq] at h
      obtain ⟨hm, hr⟩ := h
      subst hm; subst hr
      obtain ⟨hc1, hc2⟩ := h2
      subst hc1
      exact ⟨['0', c2], rfl, Or.inl ⟨c2, rfl, hc2.1, hc2.2, rfl⟩⟩
    · simp only [Option.some.injEq, Prod.mk.injEq] at h
      obtain ⟨hm, hr⟩ := h
      subst hm; subst hr
      exact ⟨[c1], rfl, Or.inr (Or.inr ⟨c1, rfl, h3.1, h3.2, rfl⟩)⟩

theorem parseDay_sound {cs rest : List Char} {d : Nat}
    (h : parseDay cs = some (d, rest)) :
    ∃ dcs, cs = dcs ++ rest ∧ DayTok dcs d := by
  match cs with
  | [] => simp [parseDay] at h
  | [c] =>
    simp only [parseDay] at h
    split_ifs at h with hc
    simp only [Option.some.injEq, Prod.mk.injEq] at h
    obtain ⟨hm, hr⟩ := h
    subst hm; subst hr
    exact ⟨[c], by simp, Or.inr (Or.inr (Or.inr ⟨c, rfl, hc.1, hc.2, rfl⟩))⟩
  | c1 :: c2 :: rest' =>
    simp only [parseDay] at h
    split_ifs at h with h1 h2 h3 h4
    · simp only [Option.some.injEq, Prod.mk.injEq] at h
      obtain ⟨hm, hr⟩ := h
      subst hm; subst hr
      obtain ⟨hc1, hc2⟩ := h1
      subst hc1
      exact ⟨['3', c2], rfl, Or.inr (Or.inl ⟨c2, rfl, hc2.1, hc2.2, rfl⟩)⟩
    · simp only [Option.some.injEq, Prod.mk.injEq] at h
      obtain ⟨hm, hr⟩ := h
      subst hm; subst hr
      exact ⟨[c1, c2], rfl, Or.inr (Or.inr (Or.inl
        ⟨c1, c2, rfl, h2.1.1, h2.1.2, h2.2.1, h2.2.2, rfl⟩))⟩
    · simp only [Option.some.injEq, Prod.mk.injEq] at h
      obtain ⟨hm, hr⟩ := h
      subst hm; subst hr
      obtain ⟨hc1, hc2⟩ := h3
      subst hc1
      exact ⟨['0', c2], rfl, Or.inl ⟨c2, rfl, hc2.1, hc2.2, rfl⟩⟩
    · simp only [Option.some.injEq, Prod.mk.injEq] at h
      obtain ⟨hm, hr⟩ := h
      subst hm; subst hr
      exact ⟨[c1], rfl, Or.inr (Or.inr (Or.inr ⟨c1, rfl, h4.1, h4.2, rfl⟩))⟩

theorem parseMonth_complete {mcs : List Char} {m : Nat} (hm : MonthTok mcs m)
    (tail : List Char) :
    parseMonth (mcs ++ '-' :: tail) = some (m, '-' :: tail) := by
  rcases hm with ⟨c, rfl, hc1, hc2, rfl⟩ | ⟨c, rfl, hc1, hc2, rfl⟩ | ⟨c, rfl, hc1, hc2, rfl⟩
  · simp only [List.cons_append, List.nil_append, parseMonth]
    simp [hc1, hc2]
  · simp only [List.cons_append, List.nil_append, parseMonth]
    simp [hc1, hc2]
  · have hn1 : ¬(48 ≤ ('-' : Char).toNat ∧ ('-' : Char).toNat ≤ 50) := by decide
    have hn2 : ¬(49 ≤ ('-' : Char).toNat ∧ ('-' : Char).toNat ≤ 57) := by decide
    simp only [List.cons_append, List.nil_append, parseMonth]
    simp [hn1, hn2, hc1, hc2]

theorem parseDay_complete {dcs : List Char} {d : Nat} (hd : DayTok dcs d) :
    parseDay dcs = some (d, []) := by
  rcases hd with ⟨c, rfl, hc1, hc2, rfl⟩ | ⟨c, rfl, hc1, hc2, rfl⟩ |
    ⟨c1, c2, rfl, hb1, hb2, hb3, hb4, rfl⟩ | ⟨c, rfl, hc1, hc2, rfl⟩
  · have hn2 : ¬(49 ≤ ('0' : Char).toNat ∧ ('0' : Char).toNat ≤ 50) := by decide
    simp only [parseDay]
    simp [hn2, hc1, hc2]
  · simp only [parseDay]
    simp [hc1, hc2]
  · have hn3 : ¬(c1 = '3') := by
      intro h; subst h; exact absurd hb2 (by decide)
    simp only [parseDay]
    simp [hn3, hb1, hb2, hb3, hb4]
  · simp only [parseDay]
    simp [hc1, hc2]

theorem parseYMD_sound {cs : List Char} {y m d : Nat}
    (h : parseYMD cs = some (y, m, d)) :
    ∃ c1 c2 c3 c4 mcs dcs,
      cs = c1 :: c2 :: c3 :: c4 :: '-' :: (mcs ++ '-' :: dcs) ∧
      isDig c1 = true ∧ isDig c2 = true ∧ isDig c3 = true ∧ isDig c4 = true ∧
      y = yearVal c1 c2 c3 c4 ∧ MonthTok mcs m ∧ DayTok dcs d := by
  match cs with
  | [] => simp [parseYMD] at h
  | [_] => simp [parseYMD] at h
  | [_, _] => simp [parseYMD] at h
  | [_, _, _] => simp [parseYMD] at h
  | [_, _, _, _] => simp [parseYMD] at h
  | c1 :: c2 :: c3 :: c4 :: c5 :: rest =>
    simp only [parseYMD] at h
    split_ifs at h with hd0
    obtain ⟨hd1, hd2, hd3, hd4, hd5⟩ := hd0
    subst hd5
    cases hpm : parseMonth rest with
    | none => simp [hpm] at h
    | some t =>
      obtain ⟨m', rest2⟩ := t
      simp only [hpm] at h
      cases rest2 with
      | nil => simp [afterMonth] at h
      | cons c6 rest3 =>
        simp only [afterMonth] at h
        split_ifs at h with h6
        subst h6
        cases hpd : parseDay rest3 with
        | none => simp [hpd, finishDay] at h
        | some t2 =>
          obtain ⟨d', rest4⟩ := t2
          simp only [hpd, finishDay] at h
          split_ifs at h with h7
          subst h7
          simp only [Option.some.injEq, Prod.mk.injEq] at h
          obtain ⟨hy, hm, hd'⟩ := h
          subst hy; subst hm; subst hd'
          obtain ⟨mcs, hrest, hMtok⟩ := parseMonth_sound hpm
          obtain ⟨dcs, hrest3, hDtok⟩ := parseDay_sound hpd
          rw [List.append_nil] at hrest3
          refine ⟨c1, c2, c3, c4, mcs, dcs, ?_, hd1, hd2, hd3, hd4, rfl,
            hMtok, hDtok⟩
          rw [hrest, hrest3]

theorem parseYMD_complete {c1 c2 c3 c4 : Char} {mcs dcs : List Char} {m d : Nat}
    (h1 : isDig c1 = true) (h2 : isDig c2 = true) (h3 : isDig c3 = true)
    (h4 : isDig c4 = true) (hm : MonthTok mcs m) (hd : DayTok dcs d) :
    parseYMD (c1 :: c2 :: c3 :: c4 :: '-' :: (mcs ++ '-' :: dcs)) =
      some (yearVal c1 c2 c3 c4, m, d) := by
  simp [parseYMD, parseMonth_complete hm dcs, afterMonth, finishDay,
    parseDay_complete hd, h1, h2, h3, h4]

theorem monthTok_range {mcs : List Char} {m : Nat} (h : MonthTok mcs m) :
    1 ≤ m ∧ m ≤ 12 := by
  rcases h with ⟨c, -, hc1, hc2, rfl⟩ | ⟨c, -, hc1, hc2, rfl⟩ | ⟨c, -, hc1, hc2, rfl⟩ <;>
    unfold digVal <;> omega

theorem dayTok_pos {dcs : List Char} {d : Nat} (h : DayTok dcs d) : 1 ≤ d := by
  rcases h with ⟨c, -, hc1, hc2, rfl⟩ | ⟨c, -, hc1, hc2, rfl⟩ |
    ⟨c1, c2, -, hb1, hb2, hb3, hb4, rfl⟩ | ⟨c, -, hc1, hc2, rfl⟩ <;>
    unfold digVal <;> omega

/-- C3: the date validator is a total boolean predicate that accepts
exactly the strings denoting real proleptic-Gregorian calendar dates in
the `strptime("%Y-%m-%d")` shape; every other string yields `false`
(the `ValueError` is caught, never propagated). -/
theorem is_date_valid_iff_gregorian (s : String) :
    is_date_valid s = true ↔ IsGregorianDate s := by
  constructor
  · intro h
    unfold is_date_valid at h
    rw [Option.isSome_iff_exists] at h
    obtain ⟨⟨y, m, d⟩, hs⟩ := h
    unfold strptimeYMD at hs
    cases hp : parseYMD s.toList with
    | none => rw [hp] at hs; simp [checkCal] at hs
    | some t =>
      obtain ⟨y', m', d'⟩ := t
      rw [hp] at hs
      simp only [checkCal] at hs
      split_ifs at hs with hcal
      simp only [Option.some.injEq, Prod.mk.injEq] at hs
      obtain ⟨hy, hm, hd⟩ := hs
      subst hy; subst hm; subst hd
      obtain ⟨c1, c2, c3, c4, mcs, dcs, hlist, hd1, hd2, hd3, hd4, hyv, hM, hD⟩ :=
        parseYMD_sound hp
      have hlist' : s.toList = c1 :: c2 :: c3 :: c4 :: '-' :: (mcs ++ '-' :: dcs) :=
        hlist
      exact ⟨y', m', d', c1, c2, c3, c4, mcs, dcs, hlist', hd1, hd2, hd3, hd4,
        hyv, hM, hD, hcal.1, (monthTok_range hM).1, (monthTok_range hM).2,
        dayTok_pos hD, hcal.2⟩
  · intro h
    obtain ⟨y, m, d, c1, c2, c3, c4, mcs, dcs, hlist, hd1, hd2, hd3, hd4, hyv, hM,
      hD, hy1, hm1, hm2, hdd1, hdd2⟩ := h
    unfold is_date_valid strptimeYMD
    rw [hlist, parseYMD_complete hd1 hd2 hd3 hd4 hM hD, ← hyv]
    simp [checkCal, hy1, hdd2]

/-- Witness for C3: the spec's example date is accepted. -/
theorem is_date_valid_iff_gregorian_witness : is_date_valid "2021-02-28" = true :=
  (is_date_valid_iff_gregorian "2021-02-28").mpr
    ⟨2021, 2, 28, '2', '0', '2', '1', ['0', '2'], ['2', '8'], by decide,
      by decide, by decide, by decide, by decide, by decide,
      Or.inl ⟨'2', rfl, by decide, by decide, by decide⟩,
      Or.inr (Or.inr (Or.inl ⟨'2', '8', rfl, by decide, by decide, by decide,
        by decide, by decide⟩)),
      by decide, by decide, by decide, by decide, by decide⟩

theorem daysInMonth_ge_28 (y m : Nat) : 28 ≤ daysInMonth y m := by
  unfold daysInMonth
  split_ifs <;> omega

/-- C10: a two-part `YYYY-MM` date with a real year (at least 1) and month
(1 to 12) is, after repair by `handle_two_part_dates`, accepted by
`is_date_valid`: the validator accepts the non-zero-padded day `1`, so
repaired partial dates survive the pipeline's validity filter. -/
theorem repaired_two_part_date_valid (c1 c2 c3 c4 c5 c6 : Char)
    (h1 : isDig c1 = true) (h2 : isDig c2 = true) (h3 : isDig c3 = true)
    (h4 : isDig c4 = true) (h5 : isDig c5 = true) (h6 : isDig c6 = true)
    (hy : 1 ≤ yearVal c1 c2 c3 c4)
    (hm1 : 1 ≤ 10 * digVal c5 + digVal c6)
    (hm2 : 10 * digVal c5 + digVal c6 ≤ 12) :
    is_date_valid (handle_two_part_dates (String.mk [c1, c2, c3, c4, '-', c5, c6])) =
      true := by
  have hne : ∀ c : Char, isDig c = true → ¬(c = '-') := by
    intro c hc hcd
    subst hcd
    exact absurd hc (by decide)
  have hsplit : splitOnCh '-' [c1, c2, c3, c4, '-', c5, c6] =
      [[c1, c2, c3, c4], [c5, c6]] := by
    simp only [splitOnCh, splitAux, if_neg (hne c1 h1), if_neg (hne c2 h2),
      if_neg (hne c3 h3), if_neg (hne c4 h4), eq_self_iff_true, if_true,
      if_neg (hne c5 h5), if_neg (hne c6 h6)]
  have hhandle : handle_two_part_dates (String.mk [c1, c2, c3, c4, '-', c5, c6]) =
      String.mk (c1 :: c2 :: c3 :: c4 :: '-' :: ([c5, c6] ++ '-' :: ['1'])) := by
    unfold handle_two_part_dates
    rw [string_toList_mk, hsplit]
    simp [joinCh_cons_cons, joinCh]
  rw [hhandle]
  have h5' := isDig_iff.mp h5
  have h6' := isDig_iff.mp h6
  have hM : MonthTok [c5, c6] (10 * digVal c5 + digVal c6) := by
    by_cases hc5 : c5.toNat = 48
    · left
      have hc5' : c5 = '0' := char_eq_of_toNat (by rw [hc5]; rfl)
      refine ⟨c6, by rw [hc5'], ?_, h6'.2, ?_⟩
      · unfold digVal at hm1
        omega
      · unfold digVal
        omega
    · by_cases hc5'' : c5.toNat = 49
      · right; left
        have hc5' : c5 = '1' := char_eq_of_toNat (by rw [hc5'']; rfl)
        refine ⟨c6, by rw [hc5'], h6'.1, ?_, ?_⟩
        · unfold digVal at hm2
          omega
        · unfold digVal
          omega
      · exfalso
        unfold digVal at hm2
        omega
  have hD : DayTok ['1'] 1 :=
    Or.inr (Or.inr (Or.inr ⟨'1', rfl, by decide, by decide, by decide⟩))
  have hdm : 1 ≤ daysInMonth (yearVal c1 c2 c3 c4) (10 * digVal c5 + digVal c6) :=
    le_trans (by omega) (daysInMonth_ge_28 (yearVal c1 c2 c3 c4)
      (10 * digVal c5 + digVal c6))
  unfold is_date_valid strptimeYMD
  rw [string_toList_mk, parseYMD_complete h1 h2 h3 h4 hM hD]
  simp [checkCal, hy, hdm]

/-- Witness for C10 at the spec's example month `2021-06`. -/
theorem repaired_two_part_date_valid_witness :
    is_date_valid (handle_two_part_dates (String.mk ['2', '0', '2', '1', '-', '0', '6'])) =
      true :=
  repaired_two_part_date_valid '2' '0' '2' '1' '0' '6' (by decide) (by decide)
    (by decide) (by decide) (by decide) (by decide) (by decide) (by decide)
    (by decide)

/-- C7: for records whose two dates parse, `days_to_submit` is exactly the
difference of proleptic-Gregorian day ordinals, submission minus
collection — the seconds-based floor division is exact, the value is not
clamped and is negative when submission precedes collection. -/
theorem days_to_submit_eq_ordinal_diff (date date_submitted : String)
    (y1 m1 d1 y2 m2 d2 : Nat)
    (hc : strptimeYMD date = some (y1, m1, d1))
    (hsub : strptimeYMD date_submitted = some (y2, m2, d2)) :
    days_to_submit date date_submitted =
      some ((toOrdinal y2 m2 d2 : Int) - (toOrdinal y1 m1 d1 : Int)) := by
  have hcc : (((toOrdinal y2 m2 d2 : Int) - (toOrdinal y1 m1 d1 : Int)) * 86400).fdiv
      86400 = (toOrdinal y2 m2 d2 : Int) - (toOrdinal y1 m1 d1 : Int) :=
    Int.mul_fdiv_cancel _ (by norm_num)
  unfold days_to_submit
  rw [hsub, hc]
  simp [hcc]

/-- Witness for C7 at the spec's example (4 days), plus the reversed pair
showing the negative, unclamped case. -/
theorem days_to_submit_eq_ordinal_diff_witness :
    days_to_submit "2021-01-01" "2021-01-05" = some 4 ∧
    days_to_submit "2021-01-05" "2021-01-01" = some (-4) := by
  constructor
  · rw [days_to_submit_eq_ordinal_diff "2021-01-01" "2021-01-05" 2021 1 1 2021 1 5
      (by decide) (by decide)]
    decide
  · rw [days_to_submit_eq_ordinal_diff "2021-01-05" "2021-01-01" 2021 1 5 2021 1 1
      (by decide) (by decide)]
    decide

theorem foldl_rules_cases (c : String) (rs : List LabRule) (l : String) :
    rs.foldl (fun cur r => if fires r c cur then r.repl else cur) l = l ∨
      ∃ r ∈ rs, rs.foldl (fun cur r => if fires r c cur then r.repl else cur) l =
        r.repl := by
  induction rs generalizing l with
  | nil => exact Or.inl rfl
  | cons r0 rs ih =>
    simp only [List.foldl_cons]
    by_cases hf : fires r0 c l
    · rw [if_pos hf]
      rcases ih r0.repl with h | ⟨r, hr, heq⟩
      · exact Or.inr ⟨r0, by simp, h⟩
      · exact Or.inr ⟨r, by simp [hr], heq⟩
    · rw [if_neg hf]
      rcases ih l with h | ⟨r, hr, heq⟩
      · exact Or.inl h
      · exact Or.inr ⟨r, by simp [hr], heq⟩

theorem foldl_rules_fixed (c : String) (rs : List LabRule) (v : String)
    (h : ∀ r ∈ rs, r.labCond v = false) :
    rs.foldl (fun cur r => if fires r c cur then r.repl else cur) v = v := by
  induction rs with
  | nil => rfl
  | cons r0 rs ih =>
    simp only [List.foldl_cons]
    have hf : fires r0 c v = false := by
      unfold fires
      rw [h r0 (by simp)]
      simp
    rw [if_neg (by simp [hf])]
    exact ih (fun r hr => h r (by simp [hr]))

/-- No rule's lab condition accepts any rule's replacement string: the
canonical names produced by the substitution table never trigger a
substitution again. -/
theorem labRules_stable :
    (labRules.all fun i => labRules.all fun j => !(j.labCond i.repl)) = true := by
  decide

theorem normalizeLab_idem (c l : String) :
    normalizeLab c (normalizeLab c l) = normalizeLab c l := by
  have hdef : ∀ x, normalizeLab c x =
      labRules.foldl (fun cur r => if fires r c cur then r.repl else cur) x :=
    fun _ => rfl
  rcases foldl_rules_cases c labRules l with h | ⟨r, hr, heq⟩
  · have h' : normalizeLab c l = l := (hdef l).trans h
    rw [h', h']
  · have h' : normalizeLab c l = r.repl := (hdef l).trans heq
    rw [h']
    have hst := labRules_stable
    rw [List.all_eq_true] at hst
    have hst2 := hst r hr
    rw [List.all_eq_true] at hst2
    rw [hdef r.repl]
    apply foldl_rules_fixed
    intro r' hr'
    have h2 := hst2 r' hr'
    simpa using h2

/-- C8: the lab-name normalization stage is idempotent — on any table
whose `submitting_lab` values already result from one application of the
ordered substitution rules (in particular the canonical replacement
strings), a second application changes nothing. -/
theorem normalize_submitting_labs_idempotent (rows : List MetadataRecord) :
    normalize_submitting_labs (normalize_submitting_labs rows) =
      normalize_submitting_labs rows := by
  induction rows with
  | nil => rfl
  | cons r rest ih =>
    unfold normalize_submitting_labs at ih ⊢
    simp only [List.map_cons, List.cons.injEq]
    exact ⟨by simp [normalizeLab_idem], ih⟩

theorem buildOut_mem {rs : List MetadataRecord} {out : List AfricaRecord}
    (h : buildOut rs = .ok out) :
    ∀ o ∈ out, ∃ r ∈ rs, o.date = r.date ∧ o.date_submitted = r.date_submitted ∧
      o.Nextstrain_clade = r.Nextstrain_clade ∧
      days_to_submit r.date r.date_submitted = some o.days_to_submit := by
  induction rs generalizing out with
  | nil =>
    simp only [buildOut, Except.ok.injEq] at h
    subst h
    intro o ho
    simp at ho
  | cons r rest ih =>
    simp only [buildOut] at h
    cases hd : days_to_submit r.date r.date_submitted with
    | none => simp [hd] at h
    | some k =>
      simp only [hd] at h
      cases hb : buildOut rest with
      | error e => simp [hb] at h
      | ok out' =>
        simp only [hb, Except.ok.injEq] at h
        subst h
        intro o ho
        rcases List.mem_cons.mp ho with rfl | ho'
        · exact ⟨r, by simp, rfl, rfl, rfl, by rw [hd]⟩
        · obtain ⟨r', hr', hprops⟩ := ih hb o ho'
          exact ⟨r', by simp [hr'], hprops⟩

theorem days_to_submit_some {a b : String} {k : Int}
    (h : days_to_submit a b = some k) :
    is_date_valid a = true ∧ is_date_valid b = true := by
  unfold days_to_submit at h
  cases hb : strptimeYMD b with
  | none => simp [hb] at h
  | some t2 =>
    cases ha : strptimeYMD a with
    | none => simp [hb, ha] at h
    | some t1 =>
      unfold is_date_valid
      rw [ha, hb]
      simp

/-- C1: every record retained by `get_africa_metadata` has a `date` and a
`date_submitted` accepted by `is_date_valid` and a non-null
`Nextstrain_clade`.  The `date` validity and the clade come from the
explicit filters; `date_submitted` validity holds because the
`days_to_submit` stage parses it with `strptime` and an invalid value
aborts the whole call, so no table is returned at all. -/
theorem get_africa_metadata_retained_valid (rows : List MetadataRecord)
    (out : List AfricaRecord) (h : get_africa_metadata rows = .ok out) :
    ∀ o ∈ out, is_date_valid o.date = true ∧ is_date_valid o.date_submitted = true ∧
      o.Nextstrain_clade.isSome = true := by
  unfold get_africa_metadata at h
  intro o ho
  obtain ⟨r, hr, hdate, hds, hclade, hdays⟩ := buildOut_mem h o ho
  have hvalid := days_to_submit_some hdays
  refine ⟨by rw [hdate]; exact hvalid.1, by rw [hds]; exact hvalid.2, ?_⟩
  rw [hclade]
  unfold normalize_submitting_labs at hr
  obtain ⟨r4r, hr4, hfr⟩ := List.mem_map.mp hr
  have hcl : r.Nextstrain_clade = r4r.Nextstrain_clade := by rw [← hfr]
  rw [hcl]
  exact (List.mem_filter.mp hr4).2

/-- Witness for C1 on the sample table. -/
theorem get_africa_metadata_retained_valid_witness :
    is_date_valid sampleOutRec.date = true ∧
    is_date_valid sampleOutRec.date_submitted = true ∧
    sampleOutRec.Nextstrain_clade.isSome = true :=
  get_africa_metadata_retained_valid sampleRows sampleOut (by rfl) sampleOutRec
    (by simp [sampleOut])

/-- C4: with no exact `Country_Name` match and no unique substring match,
the inputs "Kosovo" and "Palestine" resolve through the hardcoded
overrides to (Europe, XK) and (Asia, PS); and the overrides are reached
only after those two match attempts fail — an exact match, or a unique
substring match, takes precedence. -/
theorem resolve_kosovo_palestine_override (tbl : List CountryRow)
    (hKe : (tbl.filter (fun r => r.Country_Name == "Kosovo")).head? = none)
    (hKs : (tbl.filter (fun r => containsSub r.Country_Name "Kosovo")).length ≠ 1)
    (hPe : (tbl.filter (fun r => r.Country_Name == "Palestine")).head? = none)
    (hPs : (tbl.filter (fun r => containsSub r.Country_Name "Palestine")).length ≠ 1) :
    resolveCountry tbl "Kosovo" = .ok ("Europe", "XK") ∧
    resolveCountry tbl "Palestine" = .ok ("Asia", "PS") ∧
    (∀ (tbl2 : List CountryRow) (row : CountryRow),
      (tbl2.filter (fun r => r.Country_Name == "Kosovo")).head? = some row →
      resolveCountry tbl2 "Kosovo" =
        .ok (row.Continent_Name, row.Two_Letter_Country_Code)) ∧
    (∀ (tbl2 : List CountryRow) (row : CountryRow),
      (tbl2.filter (fun r => r.Country_Name == "Kosovo")).head? = none →
      tbl2.filter (fun r => containsSub r.Country_Name "Kosovo") = [row] →
      resolveCountry tbl2 "Kosovo" =
        .ok (row.Continent_Name, row.Two_Letter_Country_Code)) := by
  have haK : applyAlias "Kosovo" = "Kosovo" := by decide
  have haP : applyAlias "Palestine" = "Palestine" := by decide
  refine ⟨?_, ?_, ?_, ?_⟩
  · simp only [resolveCountry, haK, resolveDecoded, hKe]
    cases hf : tbl.filter (fun r => containsSub r.Country_Name "Kosovo") with
    | nil => simp
    | cons a t =>
      cases t with
      | nil => rw [hf] at hKs; simp at hKs
      | cons b t2 => simp
  · simp only [resolveCountry, haP, resolveDecoded, hPe]
    cases hf : tbl.filter (fun r => containsSub r.Country_Name "Palestine") with
    | nil => simp
    | cons a t =>
      cases t with
      | nil => rw [hf] at hPs; simp at hPs
      | cons b t2 => simp
  · intro tbl2 row hex
    simp only [resolveCountry, haK, resolveDecoded, hex]
  · intro tbl2 row hex hsub
    simp only [resolveCountry, haK, resolveDecoded, hex, hsub]

/-- Witness for C4 on the empty reference table. -/
theorem resolve_kosovo_palestine_override_witness :
    resolveCountry [] "Kosovo" = .ok ("Europe", "XK") ∧
    resolveCountry [] "Palestine" = .ok ("Asia", "PS") :=
  ⟨(resolve_kosovo_palestine_override [] rfl (by decide) rfl (by decide)).1,
   (resolve_kosovo_palestine_override [] rfl (by decide) rfl (by decide)).2.1⟩

/-- C5: when the (transliterated, alias-substituted) name has no exact
match, its substring match selects zero or several rows, and no override
applies, resolution fails with the "Unknown country" payload carrying the
original name — no candidate row is ever picked silently. -/
theorem resolve_unresolved_country_error (tbl : List CountryRow) (name : String)
    (hE : (tbl.filter (fun r => r.Country_Name == applyAlias name)).head? = none)
    (hS : (tbl.filter (fun r => containsSub r.Country_Name (applyAlias name))).length ≠ 1)
    (hK : applyAlias name ≠ "Kosovo") (hP : applyAlias name ≠ "Palestine") :
    resolveCountry tbl name = .error ("Unknown country:", name) := by
  simp only [resolveCountry, resolveDecoded, hE]
  cases hf : tbl.filter (fun r => containsSub r.Country_Name (applyAlias name)) with
  | nil => simp [hK, hP]
  | cons a t =>
    cases t with
    | nil => rw [hf] at hS; simp at hS
    | cons b t2 => simp [hK, hP]

/-- Witness for C5: a name contained in two reference rows (and equal to
neither) raises rather than picking one. -/
theorem resolve_unresolved_country_error_witness :
    resolveCountry congoTable "Congo" = .error ("Unknown country:", "Congo") :=
  resolve_unresolved_country_error congoTable "Congo" (by decide) (by decide)
    (by decide) (by decide)

/-- C6: the ISO-3 path maps the GISAID name through the static table, then
requires exactly one exact `Country_Name` match: one match returns that
row's `Three_Letter_Country_Code`; any other count (zero — including a
name absent from the static table — or several) raises the `ValueError`
naming the input and the match count. -/
theorem country_name_to_iso3_match_count (name : String) (tbl : List CountryRow) :
    (∀ code, iso3Matches name tbl = [code] →
      country_name_to_iso3 name tbl = .ok code) ∧
    ((iso3Matches name tbl).length ≠ 1 →
      country_name_to_iso3 name tbl = .error
        ("Wrong number of matches for " ++ name ++ ": " ++
          toString (iso3Matches name tbl).length)) := by
  constructor
  · intro code hc
    simp only [country_name_to_iso3, hc]
  · intro hne
    unfold country_name_to_iso3
    cases hm : iso3Matches name tbl with
    | nil => simp
    | cons a t =>
      cases t with
      | nil => rw [hm] at hne; simp at hne
      | cons b t2 => simp

/-- Witness for C6: one exact match returns the code, zero matches raise. -/
theorem country_name_to_iso3_match_count_witness :
    country_name_to_iso3 "Uganda" ugandaTable = .ok "UGA" ∧
    country_name_to_iso3 "Wakanda" ugandaTable =
      .error ("Wrong number of matches for " ++ "Wakanda" ++ ": " ++
        toString (iso3Matches "Wakanda" ugandaTable).length) :=
  ⟨(country_name_to_iso3_match_count "Uganda" ugandaTable).1 "UGA" (by decide),
   (country_name_to_iso3_match_count "Wakanda" ugandaTable).2 (by decide)⟩

/-- C9 (code bug): the filtering pass of `extract_africa_metadata` reads
the local `first_line_seen` before any assignment, so on any non-empty
input it raises `UnboundLocalError` at the first line instead of writing
the header and the rows whose column 5 is "Africa". -/
theorem extract_africa_metadata_unbound_local :
    extract_africa_metadata
      ["strain\tvirus\tgisaid_epi_isl\tgenbank_accession\tdate\tregion",
       "hCoV-1\tncov\tEPI_1\tMN1\t2021-01-01\tAfrica"] =
      .error "UnboundLocalError: first_line_seen" := rfl
